import Mathlib

/-!
# Verification of the Rubik's cube core (`core.cpp` / `core.h`)

A shallow embedding of the cube state & animation core: the 54-sticker data
model, move parsing, the move queue, the per-tick animation driver, the
discrete sticker mutation applied on move completion, and the per-frame
transform/color queries.

Modelling conventions:
* C++ `float` scalars are modelled by `ℚ`; decimal literals (`0.8f`, `1e-3f`,
  …) by the corresponding decimal rationals.
* `glm::ivec3` is `IVec3` (ℤ components), `glm::vec3` is `QVec3` (ℚ
  components), `glm::mat4` is `Matrix (Fin 4) (Fin 4) ℚ`.
* Quaternion rotation by multiples of 90° about coordinate axes is exact in ℚ
  once expressed through `cos`/`sin` of the angle (respectively of the half
  angle, via `sin²(θ/2) = (1−cos θ)/2` and `cos(θ/2)·sin(θ/2) = sin θ/2` for
  rotation matrices).  These are the only angles at which the program's
  floating quaternion arithmetic is consulted by the verified claims; the
  source itself relies on this exactness ("rounding recovers exact integers").
* C++ strings are `List Char`.
-/

namespace Rubik

/-- `glm::ivec3`: integer 3-vector. -/
structure IVec3 where
  x : ℤ
  y : ℤ
  z : ℤ
  deriving DecidableEq

/-- `glm::vec3` as used for axes/positions, with exact rational components. -/
structure QVec3 where
  x : ℚ
  y : ℚ
  z : ℚ
  deriving DecidableEq

/-- Cast an integer vector to a rational vector (`glm::vec3(ivec3)`). -/
def toQ (v : IVec3) : QVec3 := ⟨(v.x : ℚ), (v.y : ℚ), (v.z : ℚ)⟩

/-- Componentwise addition of rational vectors. -/
def vadd (a b : QVec3) : QVec3 := ⟨a.x + b.x, a.y + b.y, a.z + b.z⟩

/-- Scalar multiple of a rational vector. -/
def vsmul (a : QVec3) (c : ℚ) : QVec3 := ⟨a.x * c, a.y * c, a.z * c⟩

/-- Componentwise negation. -/
def vneg (a : QVec3) : QVec3 := ⟨-a.x, -a.y, -a.z⟩

/-- `glm::cross`. -/
def crossQ (a b : QVec3) : QVec3 :=
  ⟨a.y * b.z - a.z * b.y, a.z * b.x - a.x * b.z, a.x * b.y - a.y * b.x⟩

/-- `glm::dot`. -/
def dotQ (a b : QVec3) : ℚ := a.x * b.x + a.y * b.y + a.z * b.z

/-- Squared euclidean length. -/
def sqLen (a : QVec3) : ℚ := dotQ a a

/-- `std::abs` / `fabsf` on rationals (kernel-computable, unlike `|·|`'s
lattice instance; proven equal to `|·|` in `qabs_eq` below). -/
def qabs (a : ℚ) : ℚ := if a < 0 then -a else a

/-- `std::min` on rationals (returns `a` when the two are equal, as the C++
standard specifies; proven equal to `min` in `qmin_eq` below). -/
def qmin (a b : ℚ) : ℚ := if b < a then b else a

/-- `glm::round` / C `roundf`: round to nearest, halfway cases away from zero
(`round` of Mathlib rounds halfway cases up; the two agree away from halfway
points, and the program only ever rounds values that are exact integers). -/
def qround (a : ℚ) : ℤ := if a < 0 then -(round (-a)) else round a

/-- 4×4 transform matrix, `glm::mat4`. -/
abbrev Mat4 := Matrix (Fin 4) (Fin 4) ℚ

/-- `glm::translate(mat4(1), v)`. -/
def translateM (v : QVec3) : Mat4 :=
  !![1, 0, 0, v.x;
     0, 1, 0, v.y;
     0, 0, 1, v.z;
     0, 0, 0, 1]

/-- `glm::scale(mat4(1), vec3(a, b, c))`. -/
def scaleM (a b c : ℚ) : Mat4 :=
  !![a, 0, 0, 0;
     0, b, 0, 0;
     0, 0, c, 0;
     0, 0, 0, 1]

/-- `glm::toMat4(q)` for the unit quaternion `q = (cos(θ/2), sin(θ/2)·a)` of a
rotation about the unit axis `a`, expressed through `s2 = sin²(θ/2)` and
`cs = cos(θ/2)·sin(θ/2)` so that every entry is rational whenever `cos θ` and
`sin θ` are (the standard quaternion-to-matrix formula is quadratic in the
quaternion components). -/
def axisAngleMat (a : QVec3) (s2 cs : ℚ) : Mat4 :=
  !![1 - 2 * (s2 * (a.y * a.y + a.z * a.z)), 2 * (s2 * a.x * a.y - cs * a.z), 2 * (s2 * a.x * a.z + cs * a.y), 0;
     2 * (s2 * a.x * a.y + cs * a.z), 1 - 2 * (s2 * (a.x * a.x + a.z * a.z)), 2 * (s2 * a.y * a.z - cs * a.x), 0;
     2 * (s2 * a.x * a.z - cs * a.y), 2 * (s2 * a.y * a.z + cs * a.x), 1 - 2 * (s2 * (a.x * a.x + a.y * a.y)), 0;
     0, 0, 0, 1]

/-- `a mod 360` on ℚ, used to evaluate trigonometry at quarter-turn angles. -/
def qmod360 (a : ℚ) : ℚ := a - 360 * (⌊a / 360⌋ : ℤ)

/-- Cosine of `a` degrees.  Exact at multiples of 90°, the only angles at which
the program's discrete rotation and the verified transform queries evaluate
trigonometry (the default branch is never consulted by a verified claim). -/
def cosDeg (a : ℚ) : ℚ :=
  if qmod360 a = 0 then 1
  else if qmod360 a = 90 then 0
  else if qmod360 a = 180 then -1
  else if qmod360 a = 270 then 0
  else 0

/-- Sine of `a` degrees; see `cosDeg`. -/
def sinDeg (a : ℚ) : ℚ :=
  if qmod360 a = 0 then 0
  else if qmod360 a = 90 then 1
  else if qmod360 a = 180 then 0
  else if qmod360 a = 270 then -1
  else 0

/-- The rotation matrix `glm::toMat4(glm::angleAxis(glm::radians θ, normalize a))`,
via the half-angle identities `sin²(θ/2) = (1 − cos θ)/2`,
`cos(θ/2)·sin(θ/2) = (sin θ)/2`.  On the unit axes of genuine face moves,
`glm::normalize` is the identity; on the zero axis — the animation the NUL
move starts — it divides by zero, so every quaternion component after the
real part is NaN and the whole matrix is NaN-contaminated: that outcome,
which has no rational counterpart, is modelled as `none`. -/
def animRotMat (axis : QVec3) (θ : ℚ) : Option Mat4 :=
  if sqLen axis = 0 then none
  else some (axisAngleMat axis ((1 - cosDeg θ) / 2) (sinDeg θ / 2))

/-- Rotate the integer vector `v` by `θ` degrees about `axis` and round each
component to the nearest integer: models `glm::round(glm::vec3(q * p))` in
`Core::applyRotationDiscrete` (quaternion conjugation equals the Rodrigues
formula; for the quarter-turn multiples the program produces, the result is an
exact integer vector, so the float rounding — half away from zero — and
`round` agree).  The source first normalizes the axis: that is the identity on
the unit axes every valid move supplies, and is omitted here; on the zero axis
(the NUL-move animation) the source rotates by a NaN quaternion and casts NaN
to `int` — undefined behavior that no claim evaluates, and which this ℤ-exact
model does not represent. -/
def rotateRound (axis : QVec3) (θ : ℚ) (v : IVec3) : IVec3 :=
  let k := axis
  let c := cosDeg θ
  let s := sinDeg θ
  let vq := toQ v
  let w := vadd (vadd (vsmul vq c) (vsmul (crossQ k vq) s)) (vsmul k (dotQ k vq * (1 - c)))
  ⟨qround w.x, qround w.y, qround w.z⟩

/-- The sticker's integer coordinate along the rotation axis
(`if |axis.x| > 0.5 then pos.x else if |axis.y| > 0.5 then pos.y else pos.z`). -/
def axisCoord (axis : QVec3) (v : IVec3) : ℤ :=
  if 1/2 < qabs axis.x then v.x else if 1/2 < qabs axis.y then v.y else v.z

/-- RGB color (`glm::vec3`). -/
abbrev Color := ℚ × ℚ × ℚ

/-- `Core::faceToColor`: the fixed face → color table. -/
def faceToColor (face : Char) : Color :=
  if face = 'U' then (1, 1, 1)
  else if face = 'D' then (1, 1, 0)
  else if face = 'F' then (4/5, 1/20, 1/20)
  else if face = 'B' then (1, 1/2, 0)
  else if face = 'R' then (1/20, 7/10, 1/20)
  else if face = 'L' then (1/20, 3/20, 9/10)
  else (1/5, 1/5, 1/5)

/-- The orientation part of `Core::rebuildBaseModel`: rotate the quad's +z
forward axis onto the sticker normal by the shortest arc.  For the six integer
unit normals the program stores, `‖cross(z, n)‖ < 1e-4` is exactly
`cross(z, n) = 0` (the length is 0 or 1), and in the generic branch
`dot(z, n) = 0`, so `acos` yields exactly π/2 (`s2 = cs = 1/2`) and
`cross(z, n)` is already unit, making `normalize` the identity. -/
def stickerRotMat (n : IVec3) : Mat4 :=
  let nq := toQ n
  let cr := crossQ ⟨0, 0, 1⟩ nq
  if sqLen cr = 0 then
    if 0 < dotQ ⟨0, 0, 1⟩ nq then axisAngleMat ⟨0, 0, 0⟩ 0 0
    else axisAngleMat ⟨0, 1, 0⟩ 1 0
  else
    axisAngleMat cr (1/2) (1/2)

/-- `Core::rebuildBaseModel`: position the quad at
`cubePos * spacing + normal * (cubieSize/2 + 0.001)`, orient it along the
normal, scale in-plane by `cubieSize * 0.92`. -/
def baseModelOf (spacing cubieSize : ℚ) (cubePos normal : IVec3) : Mat4 :=
  let pos := vadd (vsmul (toQ cubePos) spacing) (vsmul (toQ normal) (cubieSize / 2 + 1/1000))
  let stickerScale := cubieSize * (92/100)
  translateM pos * stickerRotMat normal * scaleM stickerScale stickerScale 1

/-- One of the 54 sticker records. -/
structure Sticker where
  cubePos : IVec3
  normal : IVec3
  color : Color
  baseModel : Mat4

/-- The animation state (`Core::Anim`). -/
structure Anim where
  active : Bool
  axis : QVec3
  layer : ℤ
  targetAngle : ℚ
  currentAngle : ℚ
  speedDeg : ℚ

/-- The whole core state owned by a `Core` instance. -/
structure Core where
  cubieSize : ℚ
  gap : ℚ
  spacing : ℚ
  anim : Anim
  queue : List (List Char)
  stickers : List Sticker

/-- The stable face creation order (`FACE_ORDER`). -/
def faceOrder : List Char := ['U', 'R', 'F', 'D', 'L', 'B']

/-- The per-face outward normal assigned in `Core::buildInitialStickers`
(the `glm::ivec3(0)` default is unreachable for the six faces). -/
def faceNormal (face : Char) : IVec3 :=
  if face = 'U' then ⟨0, 1, 0⟩
  else if face = 'D' then ⟨0, -1, 0⟩
  else if face = 'F' then ⟨0, 0, 1⟩
  else if face = 'B' then ⟨0, 0, -1⟩
  else if face = 'R' then ⟨1, 0, 0⟩
  else if face = 'L' then ⟨-1, 0, 0⟩
  else ⟨0, 0, 0⟩

/-- The fixed coordinate (`fixCoord`) of a face in `Core::buildInitialStickers`. -/
def faceFix (face : Char) : ℤ :=
  if face = 'U' then 1
  else if face = 'D' then -1
  else if face = 'F' then 1
  else if face = 'B' then -1
  else if face = 'R' then 1
  else if face = 'L' then -1
  else 0

/-- The grid coordinates `-1, 0, 1` iterated by the two nested loops. -/
def gridIdx : List ℤ := [-1, 0, 1]

/-- The `cubePos` chosen for grid cell `(a, b)` of a face: U/D map `a ↦ x`,
`b ↦ -z`; F/B map `a ↦ x`, `b ↦ -y`; R/L map `a ↦ z`, `b ↦ -y`. -/
def faceCubePos (face : Char) (a b : ℤ) : IVec3 :=
  if face = 'U' ∨ face = 'D' then ⟨a, faceFix face, -b⟩
  else if face = 'F' ∨ face = 'B' then ⟨a, -b, faceFix face⟩
  else ⟨faceFix face, -b, a⟩

/-- The nine stickers of one face, in loop order (`a` outer, `b` inner). -/
def faceStickers (cubieSize spacing : ℚ) (face : Char) : List Sticker :=
  gridIdx.flatMap fun a => gridIdx.map fun b =>
    let cp := faceCubePos face a b
    { cubePos := cp
      normal := faceNormal face
      color := faceToColor face
      baseModel := baseModelOf spacing cubieSize cp (faceNormal face) }

/-- `Core::buildInitialStickers`: 6 faces × 9 stickers in stable order. -/
def buildInitialStickers (cubieSize spacing : ℚ) : List Sticker :=
  faceOrder.flatMap (faceStickers cubieSize spacing)

/-- The `Core` constructor. -/
def Core.init (cubieSize gap animSpeedDegPerSec : ℚ) : Core :=
  { cubieSize := cubieSize
    gap := gap
    spacing := cubieSize + gap
    anim := { active := false, axis := ⟨0, 0, 0⟩, layer := 0, targetAngle := 0,
              currentAngle := 0, speedDeg := animSpeedDegPerSec }
    queue := []
    stickers := buildInitialStickers cubieSize (cubieSize + gap) }

/-- C `isspace` (default locale): space, \t, \n, \v, \f, \r. -/
def isspaceC (c : Char) : Bool :=
  c = ' ' || c = '\t' || c = '\n' || c = '\x0b' || c = '\x0c' || c = '\r'

/-- C `toupper` (default locale). -/
def toupperC (c : Char) : Char :=
  if 'a' ≤ c ∧ c ≤ 'z' then Char.ofNat (c.toNat - 32) else c

/-- The out-parameters of `Core::parseMove`. -/
structure ParsedMove where
  face : Char
  amount : ℤ
  prime : Bool
  deriving DecidableEq

/-- `Core::parseMove`.  Faithful to the source quirks: all whitespace is
stripped (not just surrounding); when the stripped string is empty, `s[0]`
reads the string's NUL terminator (well-defined in C++), and
`strchr("UDLRFB", '\0')` matches that terminator, so the face `'\0'` is
*accepted*; trailing characters beyond the recognized suffixes are ignored. -/
def parseMove (move : List Char) : Option ParsedMove :=
  if move = [] then none
  else
    let s := move.filter fun c => !isspaceC c
    let face := toupperC (s.headD '\x00')
    if face ∈ ['U', 'D', 'L', 'R', 'F', 'B', '\x00'] then
      let c1 := s.getD 1 '\x00'
      let c2 := s.getD 2 '\x00'
      let amount : ℤ := if 2 ≤ s.length ∧ c1 = '2' then 2 else 1
      let prime : Bool :=
        (decide (2 ≤ s.length) && decide (c1 = '\'')) ||
        (decide (3 ≤ s.length) && decide (c1 = '2') && decide (c2 = '\''))
      some ⟨face, amount, prime⟩
    else none

/-- The face → (axis, layer) table of `Core::startParsedMove` (the chained
`if`s; an unmatched face keeps the initializers `axis = 0`, `layer = 0`). -/
def faceAxisLayer (face : Char) : QVec3 × ℤ :=
  if face = 'U' then (⟨0, 1, 0⟩, 1)
  else if face = 'D' then (⟨0, 1, 0⟩, -1)
  else if face = 'F' then (⟨0, 0, 1⟩, 1)
  else if face = 'B' then (⟨0, 0, 1⟩, -1)
  else if face = 'R' then (⟨1, 0, 0⟩, 1)
  else if face = 'L' then (⟨1, 0, 0⟩, -1)
  else (⟨0, 0, 0⟩, 0)

/-- The signed target angle computed in `Core::startParsedMove`:
`angle = 90*amount`, negated if prime, then overridden to +180 whenever
`amount == 2` (the prime flag is deliberately ignored for double turns). -/
def moveAngle (amount : ℤ) (prime : Bool) : ℚ :=
  let a : ℚ := 90 * amount
  let a := if prime then -a else a
  if amount = 2 then 180 else a

/-- `Core::startParsedMove`: activate the animation for a parsed move. -/
def startParsedMove (c : Core) (p : ParsedMove) : Core :=
  { c with anim :=
    { active := true
      axis := (faceAxisLayer p.face).1
      layer := (faceAxisLayer p.face).2
      targetAngle := moveAngle p.amount p.prime
      currentAngle := 0
      speedDeg := c.anim.speedDeg } }

/-- `Core::queueMove`: parse, and only on success append the symbol. -/
def queueMove (c : Core) (move : List Char) : Bool × Core :=
  match parseMove move with
  | none => (false, c)
  | some _ => (true, { c with queue := c.queue ++ [move] })

/-- `Core::startMoveImmediate`: the queue is cleared *before* parsing. -/
def startMoveImmediate (c : Core) (move : List Char) : Bool × Core :=
  let c1 := { c with queue := ([] : List (List Char)) }
  match parseMove move with
  | none => (false, c1)
  | some p => (true, startParsedMove c1 p)

/-- `Core::clearQueue`. -/
def clearQueue (c : Core) : Core := { c with queue := [] }

/-- `Core::isAnimating`. -/
def isAnimating (c : Core) : Bool := c.anim.active

/-- One sticker's update inside `Core::applyRotationDiscrete`: stickers in the
rotating layer get `cubePos` and `normal` rotated-and-rounded, others are
untouched. -/
def rotStickerPN (axis : QVec3) (layer : ℤ) (θ : ℚ) (s : Sticker) : Sticker :=
  if axisCoord axis s.cubePos = layer then
    { s with cubePos := rotateRound axis θ s.cubePos
             normal := rotateRound axis θ s.normal }
  else s

/-- The second loop of `Core::applyRotationDiscrete`: recompute `baseModel`. -/
def rebuildBaseModel (c : Core) (s : Sticker) : Sticker :=
  { s with baseModel := baseModelOf c.spacing c.cubieSize s.cubePos s.normal }

/-- `Core::applyRotationDiscrete`: rotate the layer's stickers discretely,
then rebuild every sticker's `baseModel`. -/
def applyRotationDiscrete (c : Core) (axis : QVec3) (layer : ℤ) (θ : ℚ) : Core :=
  { c with stickers := ((c.stickers.map (rotStickerPN axis layer θ)).map (rebuildBaseModel c)) }

/-- `Core::startNextInQueue`. -/
def startNextInQueue (c : Core) : Core :=
  if c.anim.active then c
  else
    match c.queue with
    | [] => c
    | mv :: rest =>
      let c1 := { c with queue := rest }
      match parseMove mv with
      | none => c1
      | some p => startParsedMove c1 p

/-- The clamped angular step of one tick
(`min(speedDeg * dt, |targetAngle - currentAngle|)`). -/
def stepAngle (c : Core) (dt : ℚ) : ℚ :=
  qmin (c.anim.speedDeg * dt) (qabs (c.anim.targetAngle - c.anim.currentAngle))

/-- The angle after one tick's advance, applied in the sign of the target
(`currentAngle += (targetAngle >= 0 ? 1 : -1) * take`). -/
def advancedAngle (c : Core) (dt : ℚ) : ℚ :=
  c.anim.currentAngle + (if 0 ≤ c.anim.targetAngle then 1 else -1) * stepAngle c dt

/-- Resetting the animation on completion (`active = false; currentAngle = 0`). -/
def deactivated (c : Core) : Core :=
  { c with anim := { c.anim with active := false, currentAngle := 0 } }

/-- `Core::update`: advance an active animation (clamped, in the sign of the
target); on reaching either completion threshold, mutate the stickers
discretely at exactly the *target* angle, deactivate, and immediately start
the next queued move; when idle with a non-empty queue, start the next move. -/
def update (c : Core) (dt : ℚ) : Core :=
  if c.anim.active then
    let c1 := { c with anim := { c.anim with currentAngle := advancedAngle c dt } }
    if qabs (qabs (advancedAngle c dt) - qabs c.anim.targetAngle) < 1/1000 ∨
        qabs (c.anim.targetAngle - c.anim.currentAngle) ≤ 1/10000 then
      startNextInQueue (deactivated
        (applyRotationDiscrete c1 c1.anim.axis c1.anim.layer c1.anim.targetAngle))
    else c1
  else if c.queue = [] then c else startNextInQueue c

/-- `Core::getStickerModelMatrices`: `baseModel` for every sticker when idle;
during an animation, stickers of the rotating layer additionally get
`T(center) * R(currentAngle) * T(-center)` composed on top.  An entry is
`none` when its matrix is IEEE-NaN-contaminated: the animation quaternion is
built from `glm::normalize(m_anim.axis)`, so on the zero-axis animation the
NUL move starts (C9) every rotating-layer matrix is flooded with NaNs — a
value with no rational counterpart.  The pivot `axisCenter` uses the raw,
unnormalized axis, exactly as the source does, and stays finite. -/
def getStickerModelMatrices (c : Core) : List (Option Mat4) :=
  if c.anim.active then
    let R? := animRotMat c.anim.axis c.anim.currentAngle
    let center := vsmul c.anim.axis ((c.anim.layer : ℚ) * c.spacing)
    c.stickers.map fun s =>
      if axisCoord c.anim.axis s.cubePos = c.anim.layer then
        R?.map fun R => translateM center * R * translateM (vneg center) * s.baseModel
      else some s.baseModel
  else c.stickers.map fun s => some s.baseModel

/-- `Core::getStickerColors`. -/
def getStickerColors (c : Core) : List Color :=
  c.stickers.map (·.color)

/-! ## Bridge lemmas between the computable C-style operations and Mathlib -/

theorem qabs_eq (a : ℚ) : qabs a = |a| := by
  unfold qabs
  rcases lt_or_le a 0 with h | h
  · rw [if_pos h, abs_of_neg h]
  · rw [if_neg (not_lt.mpr h), abs_of_nonneg h]

theorem qmin_eq (a b : ℚ) : qmin a b = min a b := by
  unfold qmin
  rcases lt_or_le b a with h | h
  · rw [if_pos h, min_eq_right h.le]
  · rw [if_neg (not_lt.mpr h), min_eq_left h]

theorem qround_intCast (n : ℤ) : qround ((n : ℤ) : ℚ) = n := by
  unfold qround
  rcases lt_or_le ((n : ℤ) : ℚ) 0 with h | h
  · rw [if_pos h]
    have : (-(n : ℚ)) = (((-n : ℤ) : ℤ) : ℚ) := by push_cast; ring
    rw [this, round_intCast]
    ring
  · rw [if_neg (not_lt.mpr h), round_intCast]

/-! ## Exact trigonometry at the quarter-turn angles the program produces -/

theorem qmod360_of_floor (a : ℚ) (k : ℤ) (h : ⌊a / 360⌋ = k) :
    qmod360 a = a - 360 * k := by
  unfold qmod360
  rw [h]

theorem qmod360_0 : qmod360 0 = 0 := by
  rw [qmod360_of_floor 0 0 (by norm_num)]
  norm_num

theorem qmod360_90 : qmod360 90 = 90 := by
  rw [qmod360_of_floor 90 0 (by rw [Int.floor_eq_iff] <;> norm_num)]
  norm_num

theorem qmod360_neg90 : qmod360 (-90) = 270 := by
  rw [qmod360_of_floor (-90) (-1) (by rw [Int.floor_eq_iff] <;> norm_num)]
  norm_num

theorem qmod360_180 : qmod360 180 = 180 := by
  rw [qmod360_of_floor 180 0 (by rw [Int.floor_eq_iff] <;> norm_num)]
  norm_num

theorem cosDeg_0 : cosDeg 0 = 1 := by simp [cosDeg, qmod360_0]

theorem sinDeg_0 : sinDeg 0 = 0 := by simp [sinDeg, qmod360_0]

theorem cosDeg_90 : cosDeg 90 = 0 := by norm_num [cosDeg, qmod360_90]

theorem sinDeg_90 : sinDeg 90 = 1 := by norm_num [sinDeg, qmod360_90]

theorem cosDeg_neg90 : cosDeg (-90) = 0 := by norm_num [cosDeg, qmod360_neg90]

theorem sinDeg_neg90 : sinDeg (-90) = -1 := by norm_num [sinDeg, qmod360_neg90]

theorem cosDeg_180 : cosDeg 180 = -1 := by norm_num [cosDeg, qmod360_180]

theorem sinDeg_180 : sinDeg 180 = 0 := by norm_num [sinDeg, qmod360_180]

/-! ## Integer closed forms of the discrete rotation

For the axes and angles valid moves produce, `rotateRound` is an exact
integer rotation; the next lemmas state those closed forms and are the bridge
between the ℚ-faithful definition and decidable whole-cube checks. -/

/-- Rotation about the x axis with `cos θ = c`, `sin θ = s` on integer vectors. -/
def rotXint (c s : ℤ) (v : IVec3) : IVec3 := ⟨v.x, c * v.y - s * v.z, s * v.y + c * v.z⟩

/-- Rotation about the y axis with `cos θ = c`, `sin θ = s` on integer vectors. -/
def rotYint (c s : ℤ) (v : IVec3) : IVec3 := ⟨c * v.x + s * v.z, v.y, -s * v.x + c * v.z⟩

/-- Rotation about the z axis with `cos θ = c`, `sin θ = s` on integer vectors. -/
def rotZint (c s : ℤ) (v : IVec3) : IVec3 := ⟨c * v.x - s * v.y, s * v.x + c * v.y, v.z⟩

theorem rotateRound_x (θ : ℚ) (c s : ℤ) (hc : cosDeg θ = (c : ℚ)) (hs : sinDeg θ = (s : ℚ))
    (v : IVec3) : rotateRound ⟨1, 0, 0⟩ θ v = rotXint c s v := by
  obtain ⟨x, y, z⟩ := v
  simp only [rotateRound, rotXint, toQ, crossQ, dotQ, vadd, vsmul, hc, hs]
  simp only [IVec3.mk.injEq]
  refine ⟨?_, ?_, ?_⟩
  · have h : (x : ℚ) * c + ((0 : ℚ) * z - 0 * y) * s + 1 * ((1 * x + 0 * y + 0 * z) * (1 - c)) =
        ((x : ℤ) : ℚ) := by push_cast; ring
    rw [h, qround_intCast]
  · have h : (y : ℚ) * c + ((0 : ℚ) * x - 1 * z) * s + 0 * ((1 * x + 0 * y + 0 * z) * (1 - c)) =
        ((c * y - s * z : ℤ) : ℚ) := by push_cast; ring
    rw [h, qround_intCast]
  · have h : (z : ℚ) * c + ((1 : ℚ) * y - 0 * x) * s + 0 * ((1 * x + 0 * y + 0 * z) * (1 - c)) =
        ((s * y + c * z : ℤ) : ℚ) := by push_cast; ring
    rw [h, qround_intCast]

theorem rotateRound_y (θ : ℚ) (c s : ℤ) (hc : cosDeg θ = (c : ℚ)) (hs : sinDeg θ = (s : ℚ))
    (v : IVec3) : rotateRound ⟨0, 1, 0⟩ θ v = rotYint c s v := by
  obtain ⟨x, y, z⟩ := v
  simp only [rotateRound, rotYint, toQ, crossQ, dotQ, vadd, vsmul, hc, hs]
  simp only [IVec3.mk.injEq]
  refine ⟨?_, ?_, ?_⟩
  · have h : (x : ℚ) * c + ((1 : ℚ) * z - 0 * y) * s + 0 * ((0 * x + 1 * y + 0 * z) * (1 - c)) =
        ((c * x + s * z : ℤ) : ℚ) := by push_cast; ring
    rw [h, qround_intCast]
  · have h : (y : ℚ) * c + ((0 : ℚ) * x - 0 * z) * s + 1 * ((0 * x + 1 * y + 0 * z) * (1 - c)) =
        ((y : ℤ) : ℚ) := by push_cast; ring
    rw [h, qround_intCast]
  · have h : (z : ℚ) * c + ((0 : ℚ) * y - 1 * x) * s + 0 * ((0 * x + 1 * y + 0 * z) * (1 - c)) =
        ((-s * x + c * z : ℤ) : ℚ) := by push_cast; ring
    rw [h, qround_intCast]

theorem rotateRound_z (θ : ℚ) (c s : ℤ) (hc : cosDeg θ = (c : ℚ)) (hs : sinDeg θ = (s : ℚ))
    (v : IVec3) : rotateRound ⟨0, 0, 1⟩ θ v = rotZint c s v := by
  obtain ⟨x, y, z⟩ := v
  simp only [rotateRound, rotZint, toQ, crossQ, dotQ, vadd, vsmul, hc, hs]
  simp only [IVec3.mk.injEq]
  refine ⟨?_, ?_, ?_⟩
  · have h : (x : ℚ) * c + ((0 : ℚ) * z - 1 * (y : ℚ)) * s + 0 * ((0 * x + 0 * y + 1 * z) * (1 - c)) =
        ((c * x - s * y : ℤ) : ℚ) := by push_cast; ring
    rw [h, qround_intCast]
  · have h : (y : ℚ) * c + ((1 : ℚ) * x - 0 * z) * s + 0 * ((0 * x + 0 * y + 1 * z) * (1 - c)) =
        ((s * x + c * y : ℤ) : ℚ) := by push_cast; ring
    rw [h, qround_intCast]
  · have h : (z : ℚ) * c + ((0 : ℚ) * y - 0 * x) * s + 1 * ((0 * x + 0 * y + 1 * z) * (1 - c)) =
        ((z : ℤ) : ℚ) := by push_cast; ring
    rw [h, qround_intCast]

theorem axisCoord_x (v : IVec3) : axisCoord ⟨1, 0, 0⟩ v = v.x := by
  norm_num [axisCoord, qabs]

theorem axisCoord_y (v : IVec3) : axisCoord ⟨0, 1, 0⟩ v = v.y := by
  norm_num [axisCoord, qabs]

theorem axisCoord_z (v : IVec3) : axisCoord ⟨0, 0, 1⟩ v = v.z := by
  norm_num [axisCoord, qabs]

/-! ## The (cubePos, normal) projection of the sticker state -/

/-- The logical `(cubePos, normal)` data of every sticker, in list order. -/
def pnList (c : Core) : List (IVec3 × IVec3) :=
  c.stickers.map fun s => (s.cubePos, s.normal)

/-- The action of `Core::applyRotationDiscrete` on one `(cubePos, normal)` pair. -/
def rotPN (axis : QVec3) (layer : ℤ) (θ : ℚ) (pn : IVec3 × IVec3) : IVec3 × IVec3 :=
  if axisCoord axis pn.1 = layer then
    (rotateRound axis θ pn.1, rotateRound axis θ pn.2)
  else pn

/-- A layer rotation with an explicit integer rotation function and coordinate
selector (the decidable-check form of `rotPN`). -/
def rotPNint (rot : IVec3 → IVec3) (coordf : IVec3 → ℤ) (layer : ℤ)
    (pn : IVec3 × IVec3) : IVec3 × IVec3 :=
  if coordf pn.1 = layer then (rot pn.1, rot pn.2) else pn

theorem rotPN_x_int (l : ℤ) (θ : ℚ) (c s : ℤ) (hc : cosDeg θ = (c : ℚ))
    (hs : sinDeg θ = (s : ℚ)) :
    rotPN ⟨1, 0, 0⟩ l θ = rotPNint (rotXint c s) (fun v => v.x) l := by
  funext pn
  simp only [rotPN, rotPNint, axisCoord_x, rotateRound_x θ c s hc hs]

theorem rotPN_y_int (l : ℤ) (θ : ℚ) (c s : ℤ) (hc : cosDeg θ = (c : ℚ))
    (hs : sinDeg θ = (s : ℚ)) :
    rotPN ⟨0, 1, 0⟩ l θ = rotPNint (rotYint c s) (fun v => v.y) l := by
  funext pn
  simp only [rotPN, rotPNint, axisCoord_y, rotateRound_y θ c s hc hs]

theorem rotPN_z_int (l : ℤ) (θ : ℚ) (c s : ℤ) (hc : cosDeg θ = (c : ℚ))
    (hs : sinDeg θ = (s : ℚ)) :
    rotPN ⟨0, 0, 1⟩ l θ = rotPNint (rotZint c s) (fun v => v.z) l := by
  funext pn
  simp only [rotPN, rotPNint, axisCoord_z, rotateRound_z θ c s hc hs]

/-- The `(cubePos, normal)` pairs of the freshly built cube, parameter-free. -/
def initPN : List (IVec3 × IVec3) :=
  faceOrder.flatMap fun f => gridIdx.flatMap fun a => gridIdx.map fun b =>
    (faceCubePos f a b, faceNormal f)

theorem pnList_init (cs g sp : ℚ) : pnList (Core.init cs g sp) = initPN := by
  simp only [pnList, Core.init, buildInitialStickers, faceStickers, initPN,
    List.map_flatMap, List.map_map]
  rfl

theorem rotStickerPN_pn (axis : QVec3) (layer : ℤ) (θ : ℚ) (s : Sticker) :
    ((rotStickerPN axis layer θ s).cubePos, (rotStickerPN axis layer θ s).normal) =
      rotPN axis layer θ (s.cubePos, s.normal) := by
  simp only [rotStickerPN, rotPN]
  split <;> rfl

theorem pnList_applyRot (c : Core) (axis : QVec3) (layer : ℤ) (θ : ℚ) :
    pnList (applyRotationDiscrete c axis layer θ) = (pnList c).map (rotPN axis layer θ) := by
  simp only [pnList, applyRotationDiscrete, List.map_map]
  refine List.map_congr_left fun s _ => ?_
  exact rotStickerPN_pn axis layer θ s

/-! ## The whole-cube permutation checks for each valid move shape -/

theorem perm_x_p1_90 :
    Multiset.map (rotPNint (rotXint 0 1) (fun v => v.x) 1) (↑initPN : Multiset (IVec3 × IVec3)) =
      ↑initPN := by decide

theorem perm_x_p1_neg90 :
    Multiset.map (rotPNint (rotXint 0 (-1)) (fun v => v.x) 1) (↑initPN : Multiset (IVec3 × IVec3)) =
      ↑initPN := by decide

theorem perm_x_p1_180 :
    Multiset.map (rotPNint (rotXint (-1) 0) (fun v => v.x) 1) (↑initPN : Multiset (IVec3 × IVec3)) =
      ↑initPN := by decide

theorem perm_x_m1_90 :
    Multiset.map (rotPNint (rotXint 0 1) (fun v => v.x) (-1)) (↑initPN : Multiset (IVec3 × IVec3)) =
      ↑initPN := by decide

theorem perm_x_m1_neg90 :
    Multiset.map (rotPNint (rotXint 0 (-1)) (fun v => v.x) (-1)) (↑initPN : Multiset (IVec3 × IVec3)) =
      ↑initPN := by decide

theorem perm_x_m1_180 :
    Multiset.map (rotPNint (rotXint (-1) 0) (fun v => v.x) (-1)) (↑initPN : Multiset (IVec3 × IVec3)) =
      ↑initPN := by decide

theorem perm_y_p1_90 :
    Multiset.map (rotPNint (rotYint 0 1) (fun v => v.y) 1) (↑initPN : Multiset (IVec3 × IVec3)) =
      ↑initPN := by decide

theorem perm_y_p1_neg90 :
    Multiset.map (rotPNint (rotYint 0 (-1)) (fun v => v.y) 1) (↑initPN : Multiset (IVec3 × IVec3)) =
      ↑initPN := by decide

theorem perm_y_p1_180 :
    Multiset.map (rotPNint (rotYint (-1) 0) (fun v => v.y) 1) (↑initPN : Multiset (IVec3 × IVec3)) =
      ↑initPN := by decide

theorem perm_y_m1_90 :
    Multiset.map (rotPNint (rotYint 0 1) (fun v => v.y) (-1)) (↑initPN : Multiset (IVec3 × IVec3)) =
      ↑initPN := by decide

theorem perm_y_m1_neg90 :
    Multiset.map (rotPNint (rotYint 0 (-1)) (fun v => v.y) (-1)) (↑initPN : Multiset (IVec3 × IVec3)) =
      ↑initPN := by decide

theorem perm_y_m1_180 :
    Multiset.map (rotPNint (rotYint (-1) 0) (fun v => v.y) (-1)) (↑initPN : Multiset (IVec3 × IVec3)) =
      ↑initPN := by decide

theorem perm_z_p1_90 :
    Multiset.map (rotPNint (rotZint 0 1) (fun v => v.z) 1) (↑initPN : Multiset (IVec3 × IVec3)) =
      ↑initPN := by decide

theorem perm_z_p1_neg90 :
    Multiset.map (rotPNint (rotZint 0 (-1)) (fun v => v.z) 1) (↑initPN : Multiset (IVec3 × IVec3)) =
      ↑initPN := by decide

theorem perm_z_p1_180 :
    Multiset.map (rotPNint (rotZint (-1) 0) (fun v => v.z) 1) (↑initPN : Multiset (IVec3 × IVec3)) =
      ↑initPN := by decide

theorem perm_z_m1_90 :
    Multiset.map (rotPNint (rotZint 0 1) (fun v => v.z) (-1)) (↑initPN : Multiset (IVec3 × IVec3)) =
      ↑initPN := by decide

theorem perm_z_m1_neg90 :
    Multiset.map (rotPNint (rotZint 0 (-1)) (fun v => v.z) (-1)) (↑initPN : Multiset (IVec3 × IVec3)) =
      ↑initPN := by decide

theorem perm_z_m1_180 :
    Multiset.map (rotPNint (rotZint (-1) 0) (fun v => v.z) (-1)) (↑initPN : Multiset (IVec3 × IVec3)) =
      ↑initPN := by decide

/-! ## Valid moves and the normal-direction partition (C3) -/

/-- The six face letters of the move grammar. -/
def faceLetters : List Char := ['U', 'D', 'L', 'R', 'F', 'B']

theorem moveAngle_one_false : moveAngle 1 false = 90 := by norm_num [moveAngle]

theorem moveAngle_one_true : moveAngle 1 true = -90 := by norm_num [moveAngle]

theorem moveAngle_two (b : Bool) : moveAngle 2 b = 180 := by cases b <;> norm_num [moveAngle]

theorem cosDeg_90_cast : cosDeg 90 = ((0 : ℤ) : ℚ) := by rw [cosDeg_90]; norm_num

theorem sinDeg_90_cast : sinDeg 90 = ((1 : ℤ) : ℚ) := by rw [sinDeg_90]; norm_num

theorem cosDeg_neg90_cast : cosDeg (-90) = ((0 : ℤ) : ℚ) := by rw [cosDeg_neg90]; norm_num

theorem sinDeg_neg90_cast : sinDeg (-90) = ((-1 : ℤ) : ℚ) := by rw [sinDeg_neg90]; norm_num

theorem cosDeg_180_cast : cosDeg 180 = ((-1 : ℤ) : ℚ) := by rw [cosDeg_180]; norm_num

theorem sinDeg_180_cast : sinDeg 180 = ((0 : ℤ) : ℚ) := by rw [sinDeg_180]; norm_num

theorem faceAxisLayer_U : faceAxisLayer 'U' = (⟨0, 1, 0⟩, 1) := rfl

theorem faceAxisLayer_D : faceAxisLayer 'D' = (⟨0, 1, 0⟩, -1) := rfl

theorem faceAxisLayer_F : faceAxisLayer 'F' = (⟨0, 0, 1⟩, 1) := rfl

theorem faceAxisLayer_B : faceAxisLayer 'B' = (⟨0, 0, 1⟩, -1) := rfl

theorem faceAxisLayer_R : faceAxisLayer 'R' = (⟨1, 0, 0⟩, 1) := rfl

theorem faceAxisLayer_L : faceAxisLayer 'L' = (⟨1, 0, 0⟩, -1) := rfl

/-- The (axis, layer, angle) triples that an executed valid move can hand to
`Core::applyRotationDiscrete`: a face letter's axis/layer together with the
signed angle `startParsedMove` computes for a quarter (`amount = 1`, either
prime flag) or double (`amount = 2`) turn. -/
def ValidRot (a : QVec3) (l : ℤ) (θ : ℚ) : Prop :=
  ∃ f ∈ faceLetters, ∃ amount : ℤ, ∃ prime : Bool,
    (amount = 1 ∨ amount = 2) ∧ a = (faceAxisLayer f).1 ∧ l = (faceAxisLayer f).2 ∧
    θ = moveAngle amount prime

theorem valid_perm (a : QVec3) (l : ℤ) (θ : ℚ) (h : ValidRot a l θ) :
    Multiset.map (rotPN a l θ) (↑initPN : Multiset (IVec3 × IVec3)) = ↑initPN := by
  obtain ⟨f, hf, amount, prime, hamt, rfl, rfl, rfl⟩ := h
  fin_cases hf
  · rcases hamt with rfl | rfl
    · cases prime
      · rw [faceAxisLayer_U, moveAngle_one_false,
          rotPN_y_int 1 90 0 1 cosDeg_90_cast sinDeg_90_cast]
        exact perm_y_p1_90
      · rw [faceAxisLayer_U, moveAngle_one_true,
          rotPN_y_int 1 (-90) 0 (-1) cosDeg_neg90_cast sinDeg_neg90_cast]
        exact perm_y_p1_neg90
    · rw [faceAxisLayer_U, moveAngle_two,
        rotPN_y_int 1 180 (-1) 0 cosDeg_180_cast sinDeg_180_cast]
      exact perm_y_p1_180
  · rcases hamt with rfl | rfl
    · cases prime
      · rw [faceAxisLayer_D, moveAngle_one_false,
          rotPN_y_int (-1) 90 0 1 cosDeg_90_cast sinDeg_90_cast]
        exact perm_y_m1_90
      · rw [faceAxisLayer_D, moveAngle_one_true,
          rotPN_y_int (-1) (-90) 0 (-1) cosDeg_neg90_cast sinDeg_neg90_cast]
        exact perm_y_m1_neg90
    · rw [faceAxisLayer_D, moveAngle_two,
        rotPN_y_int (-1) 180 (-1) 0 cosDeg_180_cast sinDeg_180_cast]
      exact perm_y_m1_180
  · rcases hamt with rfl | rfl
    · cases prime
      · rw [faceAxisLayer_L, moveAngle_one_false,
          rotPN_x_int (-1) 90 0 1 cosDeg_90_cast sinDeg_90_cast]
        exact perm_x_m1_90
      · rw [faceAxisLayer_L, moveAngle_one_true,
          rotPN_x_int (-1) (-90) 0 (-1) cosDeg_neg90_cast sinDeg_neg90_cast]
        exact perm_x_m1_neg90
    · rw [faceAxisLayer_L, moveAngle_two,
        rotPN_x_int (-1) 180 (-1) 0 cosDeg_180_cast sinDeg_180_cast]
      exact perm_x_m1_180
  · rcases hamt with rfl | rfl
    · cases prime
      · rw [faceAxisLayer_R, moveAngle_one_false,
          rotPN_x_int 1 90 0 1 cosDeg_90_cast sinDeg_90_cast]
        exact perm_x_p1_90
      · rw [faceAxisLayer_R, moveAngle_one_true,
          rotPN_x_int 1 (-90) 0 (-1) cosDeg_neg90_cast sinDeg_neg90_cast]
        exact perm_x_p1_neg90
    · rw [faceAxisLayer_R, moveAngle_two,
        rotPN_x_int 1 180 (-1) 0 cosDeg_180_cast sinDeg_180_cast]
      exact perm_x_p1_180
  · rcases hamt with rfl | rfl
    · cases prime
      · rw [faceAxisLayer_F, moveAngle_one_false,
          rotPN_z_int 1 90 0 1 cosDeg_90_cast sinDeg_90_cast]
        exact perm_z_p1_90
      · rw [faceAxisLayer_F, moveAngle_one_true,
          rotPN_z_int 1 (-90) 0 (-1) cosDeg_neg90_cast sinDeg_neg90_cast]
        exact perm_z_p1_neg90
    · rw [faceAxisLayer_F, moveAngle_two,
        rotPN_z_int 1 180 (-1) 0 cosDeg_180_cast sinDeg_180_cast]
      exact perm_z_p1_180
  · rcases hamt with rfl | rfl
    · cases prime
      · rw [faceAxisLayer_B, moveAngle_one_false,
          rotPN_z_int (-1) 90 0 1 cosDeg_90_cast sinDeg_90_cast]
        exact perm_z_m1_90
      · rw [faceAxisLayer_B, moveAngle_one_true,
          rotPN_z_int (-1) (-90) 0 (-1) cosDeg_neg90_cast sinDeg_neg90_cast]
        exact perm_z_m1_neg90
    · rw [faceAxisLayer_B, moveAngle_two,
        rotPN_z_int (-1) 180 (-1) 0 cosDeg_180_cast sinDeg_180_cast]
      exact perm_z_m1_180

/-- Fold a list of discrete rotations over the core state. -/
def runRotations (c : Core) (rots : List (QVec3 × ℤ × ℚ)) : Core :=
  rots.foldl (fun st r => applyRotationDiscrete st r.1 r.2.1 r.2.2) c

/-- The six axis-aligned unit directions. -/
def sixDirs : List IVec3 := [⟨1, 0, 0⟩, ⟨-1, 0, 0⟩, ⟨0, 1, 0⟩, ⟨0, -1, 0⟩, ⟨0, 0, 1⟩, ⟨0, 0, -1⟩]

/-- How many stickers currently face each of the six directions. -/
def normalCounts (c : Core) : List ℕ :=
  sixDirs.map fun d => (c.stickers.map (·.normal)).count d

theorem runRotations_pn (rots : List (QVec3 × ℤ × ℚ)) :
    ∀ c : Core, (∀ r ∈ rots, ValidRot r.1 r.2.1 r.2.2) →
      (↑(pnList c) : Multiset (IVec3 × IVec3)) = ↑initPN →
      (↑(pnList (runRotations c rots)) : Multiset (IVec3 × IVec3)) = ↑initPN := by
  induction rots with
  | nil => exact fun c _ hc => hc
  | cons r rs ih =>
    intro c hv hc
    have step : runRotations c (r :: rs) =
        runRotations (applyRotationDiscrete c r.1 r.2.1 r.2.2) rs := rfl
    rw [step]
    refine ih _ (fun x hx => hv x (List.mem_cons_of_mem r hx)) ?_
    rw [pnList_applyRot, ← Multiset.map_coe, hc]
    exact valid_perm _ _ _ (hv r (List.mem_cons_self r rs))

theorem stickers_normals_eq (c : Core) :
    c.stickers.map (·.normal) = (pnList c).map Prod.snd := by
  simp only [pnList, List.map_map]
  rfl

/-- C3: in the initial sticker set and after every sequence of completed valid
moves (each a `Core::applyRotationDiscrete` at a face's axis/layer and a
target angle a valid move can produce), the 54 stickers split into exactly 9
per axis-aligned unit normal direction. -/
theorem normal_partition_invariant (cs g sp : ℚ) (rots : List (QVec3 × ℤ × ℚ))
    (hv : ∀ r ∈ rots, ValidRot r.1 r.2.1 r.2.2) :
    normalCounts (runRotations (Core.init cs g sp) rots) = [9, 9, 9, 9, 9, 9] := by
  have h := runRotations_pn rots (Core.init cs g sp) hv (by rw [pnList_init])
  have hcount : ∀ d : IVec3,
      ((runRotations (Core.init cs g sp) rots).stickers.map (·.normal)).count d =
        (initPN.map Prod.snd).count d := by
    intro d
    rw [stickers_normals_eq]
    rw [← Multiset.coe_count, ← Multiset.coe_count, ← Multiset.map_coe, ← Multiset.map_coe, h]
  unfold normalCounts
  rw [List.map_congr_left fun d _ => hcount d]
  decide

theorem normal_partition_invariant_witness :
    normalCounts (runRotations (Core.init 1 (3/100) 360) [(⟨1, 0, 0⟩, 1, 90)]) =
      [9, 9, 9, 9, 9, 9] :=
  normal_partition_invariant 1 (3/100) 360 [(⟨1, 0, 0⟩, 1, 90)] (by
    intro r hr
    simp only [List.mem_singleton] at hr
    subst hr
    exact ⟨'R', by decide, 1, false, Or.inl rfl, rfl, rfl, by rw [moveAngle_one_false]⟩)

/-! ## Four equal quarter turns are the identity (C4) -/

theorem rotXint_four_90 (v : IVec3) :
    rotXint 0 1 (rotXint 0 1 (rotXint 0 1 (rotXint 0 1 v))) = v := by
  obtain ⟨x, y, z⟩ := v
  simp [rotXint]

theorem rotXint_four_neg90 (v : IVec3) :
    rotXint 0 (-1) (rotXint 0 (-1) (rotXint 0 (-1) (rotXint 0 (-1) v))) = v := by
  obtain ⟨x, y, z⟩ := v
  simp [rotXint]

theorem rotYint_four_90 (v : IVec3) :
    rotYint 0 1 (rotYint 0 1 (rotYint 0 1 (rotYint 0 1 v))) = v := by
  obtain ⟨x, y, z⟩ := v
  simp [rotYint]

theorem rotYint_four_neg90 (v : IVec3) :
    rotYint 0 (-1) (rotYint 0 (-1) (rotYint 0 (-1) (rotYint 0 (-1) v))) = v := by
  obtain ⟨x, y, z⟩ := v
  simp [rotYint]

theorem rotZint_four_90 (v : IVec3) :
    rotZint 0 1 (rotZint 0 1 (rotZint 0 1 (rotZint 0 1 v))) = v := by
  obtain ⟨x, y, z⟩ := v
  simp [rotZint]

theorem rotZint_four_neg90 (v : IVec3) :
    rotZint 0 (-1) (rotZint 0 (-1) (rotZint 0 (-1) (rotZint 0 (-1) v))) = v := by
  obtain ⟨x, y, z⟩ := v
  simp [rotZint]

theorem rotPNint_four (rot : IVec3 → IVec3) (coordf : IVec3 → ℤ) (l : ℤ)
    (hc : ∀ v, coordf (rot v) = coordf v)
    (h4 : ∀ v, rot (rot (rot (rot v))) = v) (pn : IVec3 × IVec3) :
    rotPNint rot coordf l (rotPNint rot coordf l (rotPNint rot coordf l
      (rotPNint rot coordf l pn))) = pn := by
  obtain ⟨p, n⟩ := pn
  by_cases h : coordf p = l
  · simp [rotPNint, h, hc, h4]
  · simp [rotPNint, h]

theorem rotPN_four (f : Char) (hf : f ∈ faceLetters) (θ : ℚ) (hθ : θ = 90 ∨ θ = -90)
    (pn : IVec3 × IVec3) :
    rotPN (faceAxisLayer f).1 (faceAxisLayer f).2 θ
      (rotPN (faceAxisLayer f).1 (faceAxisLayer f).2 θ
        (rotPN (faceAxisLayer f).1 (faceAxisLayer f).2 θ
          (rotPN (faceAxisLayer f).1 (faceAxisLayer f).2 θ pn))) = pn := by
  fin_cases hf <;> rcases hθ with rfl | rfl
  · rw [faceAxisLayer_U, rotPN_y_int 1 90 0 1 cosDeg_90_cast sinDeg_90_cast]
    exact rotPNint_four (rotYint 0 1) (fun v => v.y) 1 (fun v => rfl) rotYint_four_90 pn
  · rw [faceAxisLayer_U, rotPN_y_int 1 (-90) 0 (-1) cosDeg_neg90_cast sinDeg_neg90_cast]
    exact rotPNint_four (rotYint 0 (-1)) (fun v => v.y) 1 (fun v => rfl) rotYint_four_neg90 pn
  · rw [faceAxisLayer_D, rotPN_y_int (-1) 90 0 1 cosDeg_90_cast sinDeg_90_cast]
    exact rotPNint_four (rotYint 0 1) (fun v => v.y) (-1) (fun v => rfl) rotYint_four_90 pn
  · rw [faceAxisLayer_D, rotPN_y_int (-1) (-90) 0 (-1) cosDeg_neg90_cast sinDeg_neg90_cast]
    exact rotPNint_four (rotYint 0 (-1)) (fun v => v.y) (-1) (fun v => rfl) rotYint_four_neg90 pn
  · rw [faceAxisLayer_L, rotPN_x_int (-1) 90 0 1 cosDeg_90_cast sinDeg_90_cast]
    exact rotPNint_four (rotXint 0 1) (fun v => v.x) (-1) (fun v => rfl) rotXint_four_90 pn
  · rw [faceAxisLayer_L, rotPN_x_int (-1) (-90) 0 (-1) cosDeg_neg90_cast sinDeg_neg90_cast]
    exact rotPNint_four (rotXint 0 (-1)) (fun v => v.x) (-1) (fun v => rfl) rotXint_four_neg90 pn
  · rw [faceAxisLayer_R, rotPN_x_int 1 90 0 1 cosDeg_90_cast sinDeg_90_cast]
    exact rotPNint_four (rotXint 0 1) (fun v => v.x) 1 (fun v => rfl) rotXint_four_90 pn
  · rw [faceAxisLayer_R, rotPN_x_int 1 (-90) 0 (-1) cosDeg_neg90_cast sinDeg_neg90_cast]
    exact rotPNint_four (rotXint 0 (-1)) (fun v => v.x) 1 (fun v => rfl) rotXint_four_neg90 pn
  · rw [faceAxisLayer_F, rotPN_z_int 1 90 0 1 cosDeg_90_cast sinDeg_90_cast]
    exact rotPNint_four (rotZint 0 1) (fun v => v.z) 1 (fun v => rfl) rotZint_four_90 pn
  · rw [faceAxisLayer_F, rotPN_z_int 1 (-90) 0 (-1) cosDeg_neg90_cast sinDeg_neg90_cast]
    exact rotPNint_four (rotZint 0 (-1)) (fun v => v.z) 1 (fun v => rfl) rotZint_four_neg90 pn
  · rw [faceAxisLayer_B, rotPN_z_int (-1) 90 0 1 cosDeg_90_cast sinDeg_90_cast]
    exact rotPNint_four (rotZint 0 1) (fun v => v.z) (-1) (fun v => rfl) rotZint_four_90 pn
  · rw [faceAxisLayer_B, rotPN_z_int (-1) (-90) 0 (-1) cosDeg_neg90_cast sinDeg_neg90_cast]
    exact rotPNint_four (rotZint 0 (-1)) (fun v => v.z) (-1) (fun v => rfl) rotZint_four_neg90 pn

/-- C4: on any cube state, four discrete mutations of the same signed quarter
turn about the same face restore every sticker's `cubePos` and `normal`. -/
theorem quarter_turn_four_identity (c : Core) (f : Char) (hf : f ∈ faceLetters) (θ : ℚ)
    (hθ : θ = 90 ∨ θ = -90) :
    pnList (applyRotationDiscrete (applyRotationDiscrete (applyRotationDiscrete
      (applyRotationDiscrete c (faceAxisLayer f).1 (faceAxisLayer f).2 θ)
      (faceAxisLayer f).1 (faceAxisLayer f).2 θ)
      (faceAxisLayer f).1 (faceAxisLayer f).2 θ)
      (faceAxisLayer f).1 (faceAxisLayer f).2 θ) = pnList c := by
  rw [pnList_applyRot, pnList_applyRot, pnList_applyRot, pnList_applyRot,
    List.map_map, List.map_map, List.map_map]
  conv_rhs => rw [← List.map_id (pnList c)]
  refine List.map_congr_left fun pn _ => ?_
  exact rotPN_four f hf θ hθ pn

theorem quarter_turn_four_identity_witness :
    pnList (applyRotationDiscrete (applyRotationDiscrete (applyRotationDiscrete
      (applyRotationDiscrete (Core.init 1 (3/100) 360)
        (faceAxisLayer 'R').1 (faceAxisLayer 'R').2 90)
      (faceAxisLayer 'R').1 (faceAxisLayer 'R').2 90)
      (faceAxisLayer 'R').1 (faceAxisLayer 'R').2 90)
      (faceAxisLayer 'R').1 (faceAxisLayer 'R').2 90) = pnList (Core.init 1 (3/100) 360) :=
  quarter_turn_four_identity (Core.init 1 (3/100) 360) 'R' (by decide) 90 (Or.inl rfl)

/-! ## Sample states used by witnesses and counterexamples -/

/-- A concretely constructed core (`Core core(1.0f, 0.03f, 360.0f)`). -/
def sampleCore : Core := Core.init 1 (3/100) 360

/-- `sampleCore` after a successful `queueMove("U")`. -/
def coreWithQueuedU : Core := (queueMove sampleCore ['U']).2

/-- `sampleCore` after `startMoveImmediate("U")`: an active animation at
`currentAngle = 0`. -/
def sampleActive : Core := (startMoveImmediate sampleCore ['U']).2

/-! ## Move parsing: what the parser really accepts (C1, C2, C6, C9) -/

/-- The inputs `Core::parseMove` accepts: a non-empty string whose
whitespace-stripped form has a first character that uppercases to one of
`U D L R F B` — or is the NUL terminator read when the stripped string is
empty.  Everything after that character is ignored except for the optional
`2`/`'` suffix handling. -/
def acceptedSym (m : List Char) : Prop :=
  m ≠ [] ∧
    toupperC ((m.filter fun c => !isspaceC c).headD '\x00') ∈
      ['U', 'D', 'L', 'R', 'F', 'B', '\x00']

instance acceptedSym.decidable (m : List Char) : Decidable (acceptedSym m) := by
  unfold acceptedSym
  infer_instance

theorem parseMove_isSome_iff (m : List Char) : (parseMove m).isSome = true ↔ acceptedSym m := by
  by_cases h1 : m = []
  · simp [parseMove, acceptedSym, h1]
  · by_cases h2 : toupperC ((m.filter fun c => !isspaceC c).headD '\x00') ∈
        ['U', 'D', 'L', 'R', 'F', 'B', '\x00']
    · simp [parseMove, acceptedSym, h1, h2]
    · simp [parseMove, acceptedSym, h1, h2]

theorem queueMove_characterization (c : Core) (m : List Char) :
    queueMove c m =
      if acceptedSym m then (true, { c with queue := c.queue ++ [m] }) else (false, c) := by
  by_cases h : acceptedSym m
  · rw [if_pos h]
    obtain ⟨p, hp⟩ := Option.isSome_iff_exists.mp ((parseMove_isSome_iff m).mpr h)
    unfold queueMove
    rw [hp]
  · rw [if_neg h]
    have hs : parseMove m = none := by
      cases hP : parseMove m with
      | none => rfl
      | some p => exact absurd ((parseMove_isSome_iff m).mp (by rw [hP]; rfl)) h
    unfold queueMove
    rw [hs]

/-- The 18 strings matching the claim pattern `[UDLRFB]('|2)?`. -/
def patternMoves : List (List Char) := faceLetters.flatMap fun f => [[f], [f, '\''], [f, '2']]

/-- C2 (amended): `queueMove` returns true and appends the symbol (so the
queue grows by exactly one) precisely on `acceptedSym` inputs — a strictly
larger set than the pattern `[UDLRFB]('|2)?`, every instance of which it
contains — and returns false leaving the state untouched otherwise. -/
theorem queueMove_amended (c : Core) (m : List Char) :
    queueMove c m =
      (if acceptedSym m then (true, { c with queue := c.queue ++ [m] }) else (false, c)) ∧
    patternMoves.all (fun p => decide (acceptedSym p)) = true :=
  ⟨queueMove_characterization c m, by decide⟩

/-- C2 counterexample: "UQ" matches no pattern string, yet `queueMove`
returns true and lengthens the queue. -/
theorem queueMove_cex :
    ¬ (['U', 'Q'] ∈ patternMoves) ∧ (queueMove sampleCore ['U', 'Q']).1 = true ∧
      (queueMove sampleCore ['U', 'Q']).2.queue.length = sampleCore.queue.length + 1 := by
  refine ⟨by decide, by decide, by decide⟩

/-- C1 (amended): on an unparseable symbol, `startMoveImmediate` returns
false and leaves the animation state and every sticker untouched — but the
move queue has already been cleared unconditionally, before parsing. -/
theorem startMoveImmediate_fail (c : Core) (m : List Char) (h : parseMove m = none) :
    startMoveImmediate c m = (false, { c with queue := [] }) ∧
      (startMoveImmediate c m).2.anim = c.anim ∧
      (startMoveImmediate c m).2.stickers = c.stickers := by
  refine ⟨?_, ?_, ?_⟩ <;> simp [startMoveImmediate, h]

theorem startMoveImmediate_fail_witness :
    startMoveImmediate coreWithQueuedU ['X'] = (false, { coreWithQueuedU with queue := [] }) ∧
      (startMoveImmediate coreWithQueuedU ['X']).2.anim = coreWithQueuedU.anim ∧
      (startMoveImmediate coreWithQueuedU ['X']).2.stickers = coreWithQueuedU.stickers :=
  startMoveImmediate_fail coreWithQueuedU ['X'] (by decide)

/-- C1 counterexample: with "U" queued, `startMoveImmediate("X")` fails (returns
false) yet the queue is not what it was before the call — it has been cleared. -/
theorem startMoveImmediate_cex :
    (startMoveImmediate coreWithQueuedU ['X']).1 = false ∧
      (startMoveImmediate coreWithQueuedU ['X']).2.queue ≠ coreWithQueuedU.queue := by
  exact ⟨by decide, by decide⟩

/-- C6: for every face letter, "X2" and "X2'" both parse and both start an
animation with target +180° (the prime flag on a double turn is parsed but
has no effect), while "X" targets +90° and "X'" targets -90°. -/
theorem double_turn_prime_angles (f : Char) (hf : f ∈ faceLetters) (c : Core) :
    (∃ p, parseMove [f, '2'] = some p ∧ (startParsedMove c p).anim.active = true ∧
      (startParsedMove c p).anim.targetAngle = 180) ∧
    (∃ p, parseMove [f, '2', '\''] = some p ∧ (startParsedMove c p).anim.active = true ∧
      (startParsedMove c p).anim.targetAngle = 180) ∧
    (∃ p, parseMove [f] = some p ∧ (startParsedMove c p).anim.active = true ∧
      (startParsedMove c p).anim.targetAngle = 90) ∧
    (∃ p, parseMove [f, '\''] = some p ∧ (startParsedMove c p).anim.active = true ∧
      (startParsedMove c p).anim.targetAngle = -90) := by
  fin_cases hf
  · exact ⟨⟨⟨'U', 2, false⟩, by decide, rfl, moveAngle_two false⟩,
      ⟨⟨'U', 2, true⟩, by decide, rfl, moveAngle_two true⟩,
      ⟨⟨'U', 1, false⟩, by decide, rfl, moveAngle_one_false⟩,
      ⟨⟨'U', 1, true⟩, by decide, rfl, moveAngle_one_true⟩⟩
  · exact ⟨⟨⟨'D', 2, false⟩, by decide, rfl, moveAngle_two false⟩,
      ⟨⟨'D', 2, true⟩, by decide, rfl, moveAngle_two true⟩,
      ⟨⟨'D', 1, false⟩, by decide, rfl, moveAngle_one_false⟩,
      ⟨⟨'D', 1, true⟩, by decide, rfl, moveAngle_one_true⟩⟩
  · exact ⟨⟨⟨'L', 2, false⟩, by decide, rfl, moveAngle_two false⟩,
      ⟨⟨'L', 2, true⟩, by decide, rfl, moveAngle_two true⟩,
      ⟨⟨'L', 1, false⟩, by decide, rfl, moveAngle_one_false⟩,
      ⟨⟨'L', 1, true⟩, by decide, rfl, moveAngle_one_true⟩⟩
  · exact ⟨⟨⟨'R', 2, false⟩, by decide, rfl, moveAngle_two false⟩,
      ⟨⟨'R', 2, true⟩, by decide, rfl, moveAngle_two true⟩,
      ⟨⟨'R', 1, false⟩, by decide, rfl, moveAngle_one_false⟩,
      ⟨⟨'R', 1, true⟩, by decide, rfl, moveAngle_one_true⟩⟩
  · exact ⟨⟨⟨'F', 2, false⟩, by decide, rfl, moveAngle_two false⟩,
      ⟨⟨'F', 2, true⟩, by decide, rfl, moveAngle_two true⟩,
      ⟨⟨'F', 1, false⟩, by decide, rfl, moveAngle_one_false⟩,
      ⟨⟨'F', 1, true⟩, by decide, rfl, moveAngle_one_true⟩⟩
  · exact ⟨⟨⟨'B', 2, false⟩, by decide, rfl, moveAngle_two false⟩,
      ⟨⟨'B', 2, true⟩, by decide, rfl, moveAngle_two true⟩,
      ⟨⟨'B', 1, false⟩, by decide, rfl, moveAngle_one_false⟩,
      ⟨⟨'B', 1, true⟩, by decide, rfl, moveAngle_one_true⟩⟩

theorem double_turn_prime_angles_witness :
    ∃ p, parseMove ['U', '2', '\''] = some p ∧
      (startParsedMove sampleCore p).anim.active = true ∧
      (startParsedMove sampleCore p).anim.targetAngle = 180 :=
  (double_turn_prime_angles 'U' (by decide) sampleCore).2.1

/-- C9: any non-empty all-whitespace string is stripped to the empty string,
whose index 0 reads the NUL terminator; `strchr("UDLRFB", '\0')` matches the
terminator, so parsing succeeds, `queueMove` accepts and enqueues it, and
`startParsedMove` on the parsed move activates an animation with the zero
axis and layer 0 (the axis is then fed to `glm::normalize`, a division by
zero, in `applyRotationDiscrete`/`getStickerModelMatrices`). -/
theorem whitespace_move_accepted (c : Core) (w : List Char) (hne : w ≠ [])
    (hsp : ∀ ch ∈ w, isspaceC ch = true) :
    parseMove w = some ⟨'\x00', 1, false⟩ ∧
    queueMove c w = (true, { c with queue := c.queue ++ [w] }) ∧
    (startParsedMove c ⟨'\x00', 1, false⟩).anim.active = true ∧
    (startParsedMove c ⟨'\x00', 1, false⟩).anim.axis = ⟨0, 0, 0⟩ ∧
    (startParsedMove c ⟨'\x00', 1, false⟩).anim.layer = 0 := by
  have hfil : (w.filter fun ch => !isspaceC ch) = [] := by
    rw [List.filter_eq_nil_iff]
    intro a ha
    simp [hsp a ha]
  have hparse : parseMove w = some ⟨'\x00', 1, false⟩ := by
    unfold parseMove
    rw [if_neg hne, hfil]
    decide
  refine ⟨hparse, ?_, rfl, rfl, rfl⟩
  unfold queueMove
  rw [hparse]

theorem whitespace_move_accepted_witness :
    parseMove [' '] = some ⟨'\x00', 1, false⟩ ∧
    queueMove sampleCore [' '] = (true, { sampleCore with queue := sampleCore.queue ++ [[' ']] }) ∧
    (startParsedMove sampleCore ⟨'\x00', 1, false⟩).anim.active = true ∧
    (startParsedMove sampleCore ⟨'\x00', 1, false⟩).anim.axis = ⟨0, 0, 0⟩ ∧
    (startParsedMove sampleCore ⟨'\x00', 1, false⟩).anim.layer = 0 :=
  whitespace_move_accepted sampleCore [' '] (by decide) (by decide)

/-! ## Sticker-preservation of the operations (C7, C10) -/

theorem rotStickerPN_color (a : QVec3) (l : ℤ) (θ : ℚ) (s : Sticker) :
    (rotStickerPN a l θ s).color = s.color := by
  simp only [rotStickerPN]
  split <;> rfl

theorem rebuildBaseModel_color (c : Core) (s : Sticker) :
    (rebuildBaseModel c s).color = s.color := rfl

theorem applyRotationDiscrete_colors (c : Core) (a : QVec3) (l : ℤ) (θ : ℚ) :
    getStickerColors (applyRotationDiscrete c a l θ) = getStickerColors c := by
  simp only [getStickerColors, applyRotationDiscrete, List.map_map]
  refine List.map_congr_left fun s _ => ?_
  show (rebuildBaseModel c (rotStickerPN a l θ s)).color = s.color
  rw [rebuildBaseModel_color, rotStickerPN_color]

theorem startNextInQueue_stickers (c : Core) : (startNextInQueue c).stickers = c.stickers := by
  unfold startNextInQueue
  split
  · rfl
  · split
    · rfl
    · split <;> rfl

/-- What `Core::update` does to the stickers, independently of the queue:
they change (discretely, at the target angle) exactly when an active
animation hits a completion threshold this tick. -/
theorem update_stickers_char (c : Core) (dt : ℚ) :
    (update c dt).stickers =
      if c.anim.active = true ∧
          (qabs (qabs (advancedAngle c dt) - qabs c.anim.targetAngle) < 1/1000 ∨
            qabs (c.anim.targetAngle - c.anim.currentAngle) ≤ 1/10000) then
        (applyRotationDiscrete { c with anim := { c.anim with currentAngle := advancedAngle c dt } }
          c.anim.axis c.anim.layer c.anim.targetAngle).stickers
      else c.stickers := by
  unfold update
  by_cases h1 : c.anim.active = true
  · by_cases h2 : qabs (qabs (advancedAngle c dt) - qabs c.anim.targetAngle) < 1/1000 ∨
        qabs (c.anim.targetAngle - c.anim.currentAngle) ≤ 1/10000
    · rw [if_pos h1, if_pos h2, if_pos ⟨h1, h2⟩, startNextInQueue_stickers]
      try rfl
    · have hBig : ¬(c.anim.active = true ∧
          (qabs (qabs (advancedAngle c dt) - qabs c.anim.targetAngle) < 1/1000 ∨
            qabs (c.anim.targetAngle - c.anim.currentAngle) ≤ 1/10000)) := fun hand => h2 hand.2
      rw [if_pos h1, if_neg h2, if_neg hBig]
      try rfl
  · have hBig : ¬(c.anim.active = true ∧
        (qabs (qabs (advancedAngle c dt) - qabs c.anim.targetAngle) < 1/1000 ∨
          qabs (c.anim.targetAngle - c.anim.currentAngle) ≤ 1/10000)) := fun hand => h1 hand.1
    rw [if_neg h1, if_neg hBig]
    by_cases hq : c.queue = []
    · rw [if_pos hq]
    · rw [if_neg hq, startNextInQueue_stickers]

theorem update_stickers_queue_irrelevant (c : Core) (q : List (List Char)) (dt : ℚ) :
    (update { c with queue := q } dt).stickers = (update c dt).stickers := by
  rw [update_stickers_char, update_stickers_char]
  rfl

/-- C10: `clearQueue` empties the queue and changes nothing else — animation
state and stickers are untouched, and a subsequent `update` mutates the
stickers exactly as it would have without the clear (the in-flight move still
completes normally). -/
theorem clearQueue_only_queue (c : Core) (dt : ℚ) :
    (clearQueue c).queue = [] ∧ (clearQueue c).anim = c.anim ∧
    (clearQueue c).stickers = c.stickers ∧
    (update (clearQueue c) dt).stickers = (update c dt).stickers :=
  ⟨rfl, rfl, rfl, update_stickers_queue_irrelevant c [] dt⟩

/-! ## Color immutability across every public operation (C7) -/

/-- A public-interface operation on the core. -/
inductive Op where
  | enqueue (m : List Char)
  | immediate (m : List Char)
  | tick (dt : ℚ)
  | clear

/-- Apply one public operation. -/
def applyOp (c : Core) : Op → Core
  | .enqueue m => (queueMove c m).2
  | .immediate m => (startMoveImmediate c m).2
  | .tick dt => update c dt
  | .clear => clearQueue c

/-- Run a sequence of public operations. -/
def runOps (c : Core) (ops : List Op) : Core := ops.foldl applyOp c

theorem update_colors (c : Core) (dt : ℚ) :
    getStickerColors (update c dt) = getStickerColors c := by
  unfold getStickerColors
  rw [update_stickers_char]
  split_ifs with h
  · have hrot := applyRotationDiscrete_colors
      { c with anim := { c.anim with currentAngle := advancedAngle c dt } }
      c.anim.axis c.anim.layer c.anim.targetAngle
    simpa [getStickerColors] using hrot
  · rfl

theorem applyOp_colors (c : Core) (op : Op) :
    getStickerColors (applyOp c op) = getStickerColors c := by
  cases op with
  | enqueue m =>
    show getStickerColors (queueMove c m).2 = getStickerColors c
    cases h : parseMove m <;> simp [queueMove, h, getStickerColors]
  | immediate m =>
    show getStickerColors (startMoveImmediate c m).2 = getStickerColors c
    cases h : parseMove m <;> simp [startMoveImmediate, h, getStickerColors, startParsedMove]
  | tick dt => exact update_colors c dt
  | clear => rfl

theorem runOps_colors (ops : List Op) : ∀ c : Core,
    getStickerColors (runOps c ops) = getStickerColors c := by
  induction ops with
  | nil => intro c; rfl
  | cons op rest ih =>
    intro c
    have step : runOps c (op :: rest) = runOps (applyOp c op) rest := rfl
    rw [step, ih, applyOp_colors]

/-- The 54 colors in creation order: 9 white (U), 9 green (R), 9 red (F),
9 yellow (D), 9 blue (L), 9 orange (B). -/
def initColors : List Color :=
  List.replicate 9 (1, 1, 1) ++ List.replicate 9 (1/20, 7/10, 1/20) ++
  List.replicate 9 (4/5, 1/20, 1/20) ++ List.replicate 9 (1, 1, 0) ++
  List.replicate 9 (1/20, 3/20, 9/10) ++ List.replicate 9 (1, 1/2, 0)

theorem getStickerColors_init (cs g sp : ℚ) :
    getStickerColors (Core.init cs g sp) = initColors := rfl

/-- C7: after any sequence of public operations, `getStickerColors` returns
exactly the colors it returned right after construction, and those are the
fixed face→color table in creation order U, R, F, D, L, B. -/
theorem colors_constant (cs g sp : ℚ) (ops : List Op) :
    getStickerColors (runOps (Core.init cs g sp) ops) = getStickerColors (Core.init cs g sp) ∧
    getStickerColors (Core.init cs g sp) = initColors :=
  ⟨runOps_colors ops _, getStickerColors_init cs g sp⟩

/-! ## The per-tick animation advance (C5) and the zero-angle transform (C8) -/

theorem axisAngleMat_id (a : QVec3) : axisAngleMat a 0 0 = 1 := by
  unfold axisAngleMat
  ext i j
  fin_cases i <;> fin_cases j <;>
    simp [Matrix.one_apply, Matrix.vecHead, Matrix.vecTail] <;> norm_num

theorem translateM_mul_neg (v : QVec3) : translateM v * translateM (vneg v) = 1 := by
  unfold translateM vneg
  ext i j
  fin_cases i <;> fin_cases j <;>
    simp [Matrix.mul_apply, Fin.sum_univ_four, Matrix.one_apply, Matrix.vecHead,
      Matrix.vecTail] <;> norm_num

theorem animRotMat_zero (axis : QVec3) (hax : ¬ sqLen axis = 0) :
    animRotMat axis 0 = some 1 := by
  unfold animRotMat
  rw [if_neg hax, cosDeg_0, sinDeg_0]
  norm_num
  exact axisAngleMat_id _

/-- The NUL-move state of C9, reached through the public interface: after
`startMoveImmediate(" ")` an animation is active at `currentAngle = 0` whose
axis is the zero vector. -/
def nulMoveCore : Core := (startMoveImmediate sampleCore [' ']).2

/-- C8 (amended): whenever an animation is active with `currentAngle = 0` and
a nonzero rotation axis — the axis of every genuine face move; only the
degenerate NUL-move animation carries the zero axis — `getStickerModelMatrices`
returns, for every sticker, those in the rotating layer included, a transform
equal to that sticker's `baseModel`, so there is no visual jump at animation
start.  For the zero-axis animation the rotating layer's transforms are
NaN-contaminated instead (see `modelMatrices_at_zero_cex`). -/
theorem modelMatrices_at_zero (c : Core) (ha : c.anim.active = true)
    (h0 : c.anim.currentAngle = 0) (hax : ¬ sqLen c.anim.axis = 0) :
    getStickerModelMatrices c = c.stickers.map (fun s => some s.baseModel) := by
  unfold getStickerModelMatrices
  rw [if_pos ha]
  show c.stickers.map (fun s =>
      if axisCoord c.anim.axis s.cubePos = c.anim.layer then
        (animRotMat c.anim.axis c.anim.currentAngle).map (fun R =>
          translateM (vsmul c.anim.axis ((c.anim.layer : ℚ) * c.spacing)) * R *
            translateM (vneg (vsmul c.anim.axis ((c.anim.layer : ℚ) * c.spacing))) * s.baseModel)
      else some s.baseModel) = c.stickers.map (fun s => some s.baseModel)
  refine List.map_congr_left fun s _ => ?_
  by_cases h : axisCoord c.anim.axis s.cubePos = c.anim.layer
  · rw [if_pos h, h0, animRotMat_zero c.anim.axis hax, Option.map_some', mul_one,
      translateM_mul_neg, one_mul]
  · rw [if_neg h]

/-- C8 counterexample: at the reachable NUL-move state — animation active,
`currentAngle = 0`, axis `(0,0,0)` — the transforms are *not* all `baseModel`:
the source normalizes the zero axis (a division by zero) and the stickers of
the `z = 0` layer receive NaN-contaminated matrices. -/
theorem modelMatrices_at_zero_cex :
    nulMoveCore.anim.active = true ∧ nulMoveCore.anim.currentAngle = 0 ∧
    getStickerModelMatrices nulMoveCore ≠
      nulMoveCore.stickers.map (fun s => some s.baseModel) := by
  have hact : nulMoveCore.anim.active = true := by decide
  have haxis : nulMoveCore.anim.axis = ⟨0, 0, 0⟩ := rfl
  have hlayer : nulMoveCore.anim.layer = 0 := rfl
  have hcur : nulMoveCore.anim.currentAngle = 0 := rfl
  refine ⟨hact, hcur, ?_⟩
  intro heq
  have hunf : getStickerModelMatrices nulMoveCore = nulMoveCore.stickers.map (fun s =>
      if axisCoord nulMoveCore.anim.axis s.cubePos = nulMoveCore.anim.layer then
        (animRotMat nulMoveCore.anim.axis nulMoveCore.anim.currentAngle).map (fun R =>
          translateM (vsmul nulMoveCore.anim.axis
              ((nulMoveCore.anim.layer : ℚ) * nulMoveCore.spacing)) * R *
            translateM (vneg (vsmul nulMoveCore.anim.axis
              ((nulMoveCore.anim.layer : ℚ) * nulMoveCore.spacing))) * s.baseModel)
      else some s.baseModel) := by
    unfold getStickerModelMatrices
    rw [if_pos hact]
  rw [hunf] at heq
  have h1 := congrArg (fun l => l[1]?) heq
  simp only [List.getElem?_map] at h1
  obtain ⟨s₁, hs₁, hcp⟩ :
      ∃ s, nulMoveCore.stickers[1]? = some s ∧ s.cubePos = ⟨-1, 1, 0⟩ := ⟨_, rfl, rfl⟩
  rw [hs₁] at h1
  simp only [Option.map_some'] at h1
  have h2 := Option.some.inj h1
  have hcoord : axisCoord nulMoveCore.anim.axis s₁.cubePos = nulMoveCore.anim.layer := by
    rw [haxis, hcp, hlayer]
    norm_num [axisCoord, qabs]
  rw [if_pos hcoord, haxis, hcur] at h2
  have hR : animRotMat ⟨0, 0, 0⟩ 0 = none := by
    unfold animRotMat
    rw [if_pos (show sqLen (⟨0, 0, 0⟩ : QVec3) = 0 by norm_num [sqLen, dotQ])]
  rw [hR] at h2
  simp at h2

/-- C5: with an animation active, `deltaSeconds ≥ 0`, the configured
nonnegative speed, and the running-animation invariant
`|currentAngle| ≤ |targetAngle|`: `update` advances `currentAngle` by
`min(speedDeg·dt, |targetAngle − currentAngle|)` applied in the sign of the
target, so the advanced angle never exceeds the target in magnitude; in a tick
in which the advanced angle reaches `targetAngle`, the same call applies the
discrete sticker mutation at exactly `targetAngle`, deactivates the animation
and starts the next queued move; when neither completion threshold fires, the
call changes `currentAngle` alone. -/
theorem update_tick (c : Core) (dt : ℚ) (ha : c.anim.active = true)
    (hdt : 0 ≤ dt) (hsp : 0 ≤ c.anim.speedDeg)
    (hcur : |c.anim.currentAngle| ≤ |c.anim.targetAngle|) :
    advancedAngle c dt = c.anim.currentAngle +
      (if 0 ≤ c.anim.targetAngle then 1 else -1) *
        min (c.anim.speedDeg * dt) |c.anim.targetAngle - c.anim.currentAngle| ∧
    |advancedAngle c dt| ≤ |c.anim.targetAngle| ∧
    (advancedAngle c dt = c.anim.targetAngle →
      update c dt = startNextInQueue (deactivated
        (applyRotationDiscrete { c with anim := { c.anim with currentAngle := advancedAngle c dt } }
          c.anim.axis c.anim.layer c.anim.targetAngle))) ∧
    (¬(qabs (qabs (advancedAngle c dt) - qabs c.anim.targetAngle) < 1/1000 ∨
        qabs (c.anim.targetAngle - c.anim.currentAngle) ≤ 1/10000) →
      update c dt = { c with anim := { c.anim with currentAngle := advancedAngle c dt } }) := by
  have hstep : 0 ≤ c.anim.speedDeg * dt := mul_nonneg hsp hdt
  have hadv : advancedAngle c dt = c.anim.currentAngle +
      (if 0 ≤ c.anim.targetAngle then 1 else -1) *
        min (c.anim.speedDeg * dt) |c.anim.targetAngle - c.anim.currentAngle| := by
    unfold advancedAngle stepAngle
    rw [qmin_eq, qabs_eq]
  have hupd : update c dt =
      if qabs (qabs (advancedAngle c dt) - qabs c.anim.targetAngle) < 1/1000 ∨
          qabs (c.anim.targetAngle - c.anim.currentAngle) ≤ 1/10000 then
        startNextInQueue (deactivated (applyRotationDiscrete
          { c with anim := { c.anim with currentAngle := advancedAngle c dt } }
          c.anim.axis c.anim.layer c.anim.targetAngle))
      else { c with anim := { c.anim with currentAngle := advancedAngle c dt } } := by
    unfold update
    rw [if_pos ha]
  have hminnn : 0 ≤ min (c.anim.speedDeg * dt) |c.anim.targetAngle - c.anim.currentAngle| :=
    le_min hstep (abs_nonneg _)
  refine ⟨hadv, ?_, ?_, ?_⟩
  · rcases le_or_lt 0 c.anim.targetAngle with hTpos | hTneg
    · have habs : |c.anim.currentAngle| ≤ c.anim.targetAngle := by
        rwa [abs_of_nonneg hTpos] at hcur
      have h1 : c.anim.currentAngle ≤ c.anim.targetAngle :=
        le_trans (le_abs_self _) habs
      have h2 : -c.anim.targetAngle ≤ c.anim.currentAngle := by
        have := neg_abs_le c.anim.currentAngle
        linarith
      have hrem : |c.anim.targetAngle - c.anim.currentAngle| =
          c.anim.targetAngle - c.anim.currentAngle := abs_of_nonneg (by linarith)
      have hminle : min (c.anim.speedDeg * dt) |c.anim.targetAngle - c.anim.currentAngle| ≤
          c.anim.targetAngle - c.anim.currentAngle :=
        le_trans (min_le_right _ _) (le_of_eq hrem)
      rw [hadv, if_pos hTpos, abs_le, abs_of_nonneg hTpos]
      constructor <;> nlinarith
    · have habs : |c.anim.currentAngle| ≤ -c.anim.targetAngle := by
        rwa [abs_of_neg hTneg] at hcur
      have h1 : c.anim.targetAngle ≤ c.anim.currentAngle := by
        have := neg_abs_le c.anim.currentAngle
        linarith
      have h2 : c.anim.currentAngle ≤ -c.anim.targetAngle :=
        le_trans (le_abs_self _) habs
      have hrem : |c.anim.targetAngle - c.anim.currentAngle| =
          c.anim.currentAngle - c.anim.targetAngle := by
        rw [abs_of_nonpos (by linarith)]
        ring
      have hminle : min (c.anim.speedDeg * dt) |c.anim.targetAngle - c.anim.currentAngle| ≤
          c.anim.currentAngle - c.anim.targetAngle :=
        le_trans (min_le_right _ _) (le_of_eq hrem)
      rw [hadv, if_neg (not_le.mpr hTneg), abs_le, abs_of_neg hTneg]
      constructor <;> nlinarith
  · intro hreach
    have hzero : qabs (advancedAngle c dt) - qabs c.anim.targetAngle = 0 := by
      rw [hreach, sub_self]
    have hcond : qabs (qabs (advancedAngle c dt) - qabs c.anim.targetAngle) < 1/1000 ∨
        qabs (c.anim.targetAngle - c.anim.currentAngle) ≤ 1/10000 := by
      left
      rw [hzero]
      norm_num [qabs]
    rw [hupd, if_pos hcond]
  · intro hnc
    rw [hupd, if_neg hnc]

theorem update_tick_witness :
    |advancedAngle sampleActive 0| ≤ |sampleActive.anim.targetAngle| :=
  (update_tick sampleActive 0 (by decide) le_rfl
    (by
      have h : sampleActive.anim.speedDeg = 360 := rfl
      rw [h]
      norm_num)
    (by
      have h1 : sampleActive.anim.currentAngle = 0 := rfl
      have h2 : sampleActive.anim.targetAngle = moveAngle 1 false := rfl
      rw [h1, h2, moveAngle_one_false]
      norm_num)).2.1

theorem modelMatrices_at_zero_witness :
    getStickerModelMatrices sampleActive = sampleActive.stickers.map (fun s => some s.baseModel) :=
  modelMatrices_at_zero sampleActive (by decide) rfl
    (by
      have h : sampleActive.anim.axis = ⟨0, 1, 0⟩ := rfl
      rw [h]
      norm_num [sqLen, dotQ])

end Rubik
